import Mathlib

/-!
# Verification of the `lisa.artifacts.manifest` core

Shallow embedding of `src/lisa/artifacts/manifest.py` of the
`lisa-sgs/artifacts` repository, together with theorems settling the
claims of the specification about it.

Modelling choices, fixed throughout:

* File contents (`bytes` moved by the storage client) are modelled as
  `String`s; their exact encoding is irrelevant to every claim.
* pydantic `BaseModel` construction is modelled as validation of a list of
  keyword arguments (`Fields`).  The models in the source declare no custom
  `model_config`, so the pydantic default applies: unknown keyword arguments
  are ignored (`extra` defaults to ignoring), declared fields are validated
  strictly (`Field(strict=True)` everywhere in the source), and a missing
  optional field takes its declared default.
* The filesystem and the calls made to the boto3 client are threaded
  explicitly through a `World`: an association list of files (most recent
  write first), the set of directories that exist (as a list), and the
  chronological trace of calls issued (`Event`s).  `client.download_file`
  and `client.upload_file` are recorded in the trace exactly when the
  source issues the call, whether or not the call then fails.
* The boto3 `S3Client` is the external collaborator: a pair of functions
  giving, for each bucket/key, either the bytes transferred or an error.
  `download_file` writes the fetched bytes to the given filename on
  success and writes nothing on failure; `upload_file` reads the local
  file (failing when it does not exist) and sends its contents.
* `pathlib.Path(local_prefix) / artifact.path` is modelled by `joinPath`,
  faithful on the inputs the claims range over: an absolute right operand
  wins, an empty base disappears, otherwise the two are joined with a
  single separator.  `local_path.parent.mkdir(parents=True, exist_ok=True)`
  adds the parent directory and every ancestor of it to the directory set
  and is recorded as one `Event.mkdirParents` call.
* The Python `for` loops in `Manifest.get` / `Manifest.store` become the
  structural recursions `Manifest.getLoop` / `Manifest.storeLoop`; an
  exception raised by a per-artifact transfer aborts the loop and is
  returned as the `Except.error` of the batch, exactly as an uncaught
  Python exception would propagate.  Logging calls are not modelled.
-/

/-- File contents as moved by the storage client. -/
abbrev Content := String

/-- A value passed as a keyword argument to a pydantic model constructor. -/
inductive FieldValue
  | str (s : String)
  | int (n : Int)
deriving DecidableEq

/-- The keyword arguments of one pydantic model construction. -/
abbrev Fields := List (String × FieldValue)

/-- Look a keyword argument up by name. -/
def lookupField (kws : Fields) (k : String) : Option FieldValue :=
  List.lookup k kws

/-- A pydantic `ValidationError`, tagged with the offending field name. -/
inductive ValidationError
  | invalid (field : String)
deriving DecidableEq

/-- An optional strict `str` pydantic field with default `d`: absent means
the default, a string value passes, any other value fails validation. -/
def strFieldD (kws : Fields) (k : String) (d : String) :
    Except ValidationError String :=
  match lookupField kws k with
  | none => Except.ok d
  | some (FieldValue.str s) => Except.ok s
  | some _ => Except.error (ValidationError.invalid k)

/-- An optional strict `int` pydantic field with default `d`. -/
def intFieldD (kws : Fields) (k : String) (d : Int) :
    Except ValidationError Int :=
  match lookupField kws k with
  | none => Except.ok d
  | some (FieldValue.int n) => Except.ok n
  | some _ => Except.error (ValidationError.invalid k)

/-- The `Artifact` pydantic model: a name (used as the S3 key, after the
remote key gains its configured lead string) and a local file path relative
to the configured local base directory. -/
structure Artifact where
  name : String
  path : String
deriving DecidableEq

/-- The `ManifestConfiguration` pydantic model, with exactly the four
fields the source declares: `bucket` (required, strict `str`, minimum
length 1), `remote_prefix` and `local_prefix` (strict `str`, default the
empty string) and `max_concurrent` (strict `int`, default 50, no further
constraint — the source docstring marks it as currently unused).  The
source declares no `local_policy` field. -/
structure ManifestConfiguration where
  bucket : String
  remote_prefix : String
  local_prefix : String
  max_concurrent : Int
deriving DecidableEq

/-- pydantic construction of a `ManifestConfiguration` from keyword
arguments.  `bucket` is required, must be a string and must have length at
least 1 (`Field(min_length=1, strict=True)`); the other three fields are
optional with their declared defaults; keyword arguments that are not
declared fields are ignored, the default pydantic behavior for extras. -/
def ManifestConfiguration.validate (kws : Fields) :
    Except ValidationError ManifestConfiguration :=
  match lookupField kws "bucket" with
  | some (FieldValue.str b) =>
    if b.length < 1 then Except.error (ValidationError.invalid "bucket")
    else
      match strFieldD kws "remote_prefix" "", strFieldD kws "local_prefix" "",
          intFieldD kws "max_concurrent" 50 with
      | Except.ok rp, Except.ok lp, Except.ok mc => Except.ok ⟨b, rp, lp, mc⟩
      | Except.error e, _, _ => Except.error e
      | _, Except.error e, _ => Except.error e
      | _, _, Except.error e => Except.error e
  | some _ => Except.error (ValidationError.invalid "bucket")
  | none => Except.error (ValidationError.invalid "bucket")

/-- `GetManifestResult`: empty marker result of a `get` batch. -/
structure GetManifestResult where
deriving DecidableEq

/-- `StoreManifestResult`: empty marker result of a `store` batch. -/
structure StoreManifestResult where
deriving DecidableEq

/-- Split a character list at a separator, accumulating the current
component in reverse; structural recursion, so that concrete paths
evaluate inside the kernel. -/
def splitComponentsAux (sep : Char) : List Char → List Char → List (List Char)
  | [], acc => [acc.reverse]
  | c :: cs, acc =>
    if c = sep then acc.reverse :: splitComponentsAux sep cs []
    else splitComponentsAux sep cs (c :: acc)

/-- The components of a path: what `str(p).split("/")` yields. -/
def pathComponents (p : String) : List String :=
  (splitComponentsAux (Char.ofNat 47) p.data []).map String.mk

/-- Join path components with the separator. -/
def joinComponents : List String → String
  | [] => ""
  | [s] => s
  | s :: s2 :: rest => s ++ "/" ++ joinComponents (s2 :: rest)

/-- `pathlib.Path(base) / p`, on the inputs the claims range over: an
absolute `p` replaces the base, an empty base (which pathlib reads as the
current directory) disappears, a base already ending in the separator
gains no second one, and otherwise the two are joined with a single
separator. -/
def joinPath (base p : String) : String :=
  if p.data.head? = some (Char.ofNat 47) then p
  else if base = "" then p
  else if base.data.getLast? = some (Char.ofNat 47) then base ++ p
  else base ++ "/" ++ p

/-- `Path(p).parent`: the path without its last component; `"."` for a
single-component relative path. -/
def parentDir (p : String) : String :=
  let cs := pathComponents p
  if cs.length ≤ 1 then "." else joinComponents cs.dropLast

/-- The nonempty initial segments of a list, shortest first. -/
def initsNE : List String → List (List String)
  | [] => []
  | c :: cs => [c] :: (initsNE cs).map (fun l => c :: l)

/-- The directory `d` together with every ancestor directory of it — the
set of directories `mkdir(parents=True, exist_ok=True)` guarantees to
exist afterwards. -/
def dirChain (d : String) : List String :=
  (initsNE (pathComponents d)).map joinComponents

/-- One call the core issues against the outside world, in the order the
source issues them. -/
inductive Event
  | mkdirParents (dir : String)
  | downloadFile (bucket key filename : String)
  | uploadFile (filename bucket key : String)
deriving DecidableEq

/-- The state the core acts on: local files (most recent write first),
existing directories, and the chronological trace of issued calls. -/
structure World where
  files : List (String × Content)
  dirs : List String
  events : List Event
deriving DecidableEq

/-- `local_path.parent.mkdir(parents=True, exist_ok=True)`, lifted to the
world: records the call and makes the directory and all its ancestors
exist (creating already-existing ones is a no-op, membership being what
matters for the `dirs` component). -/
def mkdirParents (w : World) (d : String) : World :=
  { w with dirs := w.dirs ++ dirChain d,
           events := w.events ++ [Event.mkdirParents d] }

/-- A storage-client failure, or the `FileNotFoundError` `upload_file`
raises for a missing local file. -/
inductive TransferError
  | clientError (msg : String)
  | fileNotFound (path : String)
deriving DecidableEq

/-- The external boto3 S3 client: what `download_file` would fetch for a
bucket and key, and whether `upload_file` of given contents to a bucket
and key succeeds. -/
structure S3Client where
  download : String → String → Except TransferError Content
  upload : String → String → Content → Except TransferError Unit

/-- The `Manifest` pydantic model: a configuration plus the ordered list
of artifacts. -/
structure Manifest where
  config : ManifestConfiguration
  artifacts : List Artifact
deriving DecidableEq

/-- The remote key `Manifest.get_artifact` / `Manifest.store_artifact`
compute: the configured remote lead string concatenated with the artifact
name (`f"{self.config.remote_prefix}{artifact.name}"`). -/
def remoteKey : ManifestConfiguration → Artifact → String
  | ⟨_, rp, _, _⟩, a => rp ++ a.name

/-- The local path both transfer routines compute:
`Path(self.config.local_prefix) / artifact.path`. -/
def localPathOf : ManifestConfiguration → Artifact → String
  | ⟨_, _, lp, _⟩, a => joinPath lp a.path

/-- `Manifest.get_artifact`: compute the remote key and local path, create
the parent directories of the local path, then call
`client.download_file(Bucket, Key, Filename)`.  On success the fetched
bytes land at the local path; on failure the raised error is returned and
no file is written.  The call is recorded in the trace either way. -/
def Manifest.get_artifact (m : Manifest) (client : S3Client) (a : Artifact)
    (w : World) : World × Option TransferError :=
  let artifact_key := remoteKey m.config a
  let local_path := localPathOf m.config a
  let w1 := mkdirParents w (parentDir local_path)
  let w2 := { w1 with
    events := w1.events ++ [Event.downloadFile m.config.bucket artifact_key local_path] }
  match client.download m.config.bucket artifact_key with
  | Except.ok content => ({ w2 with files := (local_path, content) :: w2.files }, none)
  | Except.error e => (w2, some e)

/-- `Manifest.store_artifact`: compute the same remote key and local path,
then call `client.upload_file(Filename, Bucket, Key)` unconditionally —
no directory creation, no existence check on the remote side, no policy
gate.  `upload_file` reads the local file, failing when it is missing. -/
def Manifest.store_artifact (m : Manifest) (client : S3Client) (a : Artifact)
    (w : World) : World × Option TransferError :=
  let artifact_key := remoteKey m.config a
  let local_path := localPathOf m.config a
  let w1 := { w with
    events := w.events ++ [Event.uploadFile local_path m.config.bucket artifact_key] }
  match List.lookup local_path w.files with
  | none => (w1, some (TransferError.fileNotFound local_path))
  | some content =>
    match client.upload m.config.bucket artifact_key content with
    | Except.ok _ => (w1, none)
    | Except.error e => (w1, some e)

/-- The `for` loop of `Manifest.get`: artifacts strictly in list order,
each via `get_artifact`; a raised error aborts the loop and propagates. -/
def Manifest.getLoop (m : Manifest) (client : S3Client) :
    List Artifact → World → World × Except TransferError GetManifestResult
  | [], w => (w, Except.ok ⟨⟩)
  | a :: rest, w =>
    match m.get_artifact client a w with
    | (w1, none) => m.getLoop client rest w1
    | (w1, some e) => (w1, Except.error e)

/-- `Manifest.get`: download every artifact, returning the empty
`GetManifestResult` on success.  The boto3 client the source creates at
the top of the method is the external collaborator, passed in here. -/
def Manifest.get (m : Manifest) (client : S3Client) (w : World) :
    World × Except TransferError GetManifestResult :=
  m.getLoop client m.artifacts w

/-- The `for` loop of `Manifest.store`. -/
def Manifest.storeLoop (m : Manifest) (client : S3Client) :
    List Artifact → World → World × Except TransferError StoreManifestResult
  | [], w => (w, Except.ok ⟨⟩)
  | a :: rest, w =>
    match m.store_artifact client a w with
    | (w1, none) => m.storeLoop client rest w1
    | (w1, some e) => (w1, Except.error e)

/-- `Manifest.store`: upload every artifact, returning the empty
`StoreManifestResult` on success. -/
def Manifest.store (m : Manifest) (client : S3Client) (w : World) :
    World × Except TransferError StoreManifestResult :=
  m.storeLoop client m.artifacts w

/-- The process environment, as `os.environ` exposes it. -/
abbrev Env := String → Option String

/-- An error raised by `Manifest.from_env`: the `KeyError` of
`os.environ["ARTIFACTS_BUCKET"]`, or a pydantic `ValidationError` from the
configuration construction it performs. -/
inductive EnvError
  | keyError (key : String)
  | validation (e : ValidationError)
deriving DecidableEq

/-- `Manifest.from_env`: read `ARTIFACTS_BUCKET` (raising `KeyError` when
unset), default the two optional variables to the empty string via
`os.environ.get(var, "")`, construct the configuration, and wrap it with
the given artifacts. -/
def Manifest.from_env (env : Env) (artifacts : List Artifact) :
    Except EnvError Manifest :=
  match env "ARTIFACTS_BUCKET" with
  | none => Except.error (EnvError.keyError "ARTIFACTS_BUCKET")
  | some b =>
    match ManifestConfiguration.validate
        [("bucket", FieldValue.str b),
         ("remote_prefix", FieldValue.str ((env "ARTIFACTS_REMOTE_PREFIX").getD "")),
         ("local_prefix", FieldValue.str ((env "ARTIFACTS_LOCAL_PREFIX").getD ""))] with
    | Except.ok cfg => Except.ok ⟨cfg, artifacts⟩
    | Except.error e => Except.error (EnvError.validation e)

/-- Modelled from the spec: the asynchronous edition of the repository of the
batch operations is not under `src/` (only the `max_concurrent`
configuration field that parameterises it is); §5 of the spec describes
it.  A per-artifact transfer task is in one of four phases. -/
inductive TaskPhase
  | created
  | inFlight
  | taskDone
  | failed
deriving DecidableEq

/-- Modelled from the spec: the state of one asynchronous batch call — the
phase of every per-artifact task, and the number of available permits of
the counting semaphore that bounds in-flight transfers. -/
structure AsyncBatch where
  tasks : List TaskPhase
  avail : Nat
deriving DecidableEq

/-- Modelled from the spec: all work units are constructed eagerly, one
per artifact, before any transfer starts, and the semaphore starts with
`max_concurrent` permits. -/
def initBatch (cap n : Nat) : AsyncBatch :=
  ⟨List.replicate n TaskPhase.created, cap⟩

/-- The number of transfers currently in flight. -/
def countInFlight (b : AsyncBatch) : Nat :=
  b.tasks.countP (· == TaskPhase.inFlight)

/-- Modelled from the spec: one scheduler step of the asynchronous batch.
A created task may start only by acquiring a semaphore permit; a task in
flight releases its permit immediately on finishing, successfully or
not. -/
inductive BatchStep : AsyncBatch → AsyncBatch → Prop
  | start (b : AsyncBatch) (i k : Nat)
      (h : b.tasks.get? i = some TaskPhase.created) (ha : b.avail = k + 1) :
      BatchStep b ⟨b.tasks.set i TaskPhase.inFlight, k⟩
  | finishOk (b : AsyncBatch) (i : Nat)
      (h : b.tasks.get? i = some TaskPhase.inFlight) :
      BatchStep b ⟨b.tasks.set i TaskPhase.taskDone, b.avail + 1⟩
  | finishFail (b : AsyncBatch) (i : Nat)
      (h : b.tasks.get? i = some TaskPhase.inFlight) :
      BatchStep b ⟨b.tasks.set i TaskPhase.failed, b.avail + 1⟩

/-- Modelled from the spec: the gather joining the batch — still pending
while any task has not finished, an error as soon as all have finished
and one failed, success only when every task finished successfully. -/
def gatherResult (b : AsyncBatch) : Option (Except Unit Unit) :=
  if b.tasks.any (fun t => t == TaskPhase.created || t == TaskPhase.inFlight) then none
  else if b.tasks.any (· == TaskPhase.failed) then some (Except.error ())
  else some (Except.ok ())

theorem countInFlight_set_start :
    ∀ (l : List TaskPhase) (i : Nat), l.get? i = some TaskPhase.created →
      (l.set i TaskPhase.inFlight).countP (· == TaskPhase.inFlight) =
        l.countP (· == TaskPhase.inFlight) + 1 := by
  have e1 : (TaskPhase.created == TaskPhase.inFlight) = false := rfl
  have e2 : (TaskPhase.inFlight == TaskPhase.inFlight) = true := rfl
  intro l
  induction l with
  | nil => intro i h; simp at h
  | cons a t ih =>
    intro i h
    cases i with
    | zero =>
      simp only [List.get?] at h
      cases h
      simp [List.countP_cons, e1, e2]
    | succ j =>
      simp only [List.get?] at h
      simp only [List.set, List.countP_cons, ih j h]
      omega

theorem countInFlight_set_finish :
    ∀ (l : List TaskPhase) (i : Nat) (y : TaskPhase),
      (y == TaskPhase.inFlight) = false →
      l.get? i = some TaskPhase.inFlight →
      (l.set i y).countP (· == TaskPhase.inFlight) + 1 =
        l.countP (· == TaskPhase.inFlight) := by
  have e2 : (TaskPhase.inFlight == TaskPhase.inFlight) = true := rfl
  intro l
  induction l with
  | nil => intro i y hy h; simp at h
  | cons a t ih =>
    intro i y hy h
    cases i with
    | zero =>
      simp only [List.get?] at h
      cases h
      simp [List.countP_cons, e2, hy]
    | succ j =>
      simp only [List.get?] at h
      simp only [List.set, List.countP_cons, ← ih j y hy h]
      omega

theorem batch_invariant (cap n : Nat) (b : AsyncBatch)
    (h : Relation.ReflTransGen BatchStep (initBatch cap n) b) :
    b.avail + countInFlight b = cap := by
  induction h with
  | refl =>
    simp [initBatch, countInFlight, List.countP_eq_zero]
  | tail hsteps hstep ih =>
    cases hstep with
    | start i k hg ha =>
      have hc := countInFlight_set_start _ i hg
      simp only [countInFlight] at ih ⊢
      omega
    | finishOk i hg =>
      have hc := countInFlight_set_finish _ i TaskPhase.taskDone rfl hg
      simp only [countInFlight] at ih ⊢
      omega
    | finishFail i hg =>
      have hc := countInFlight_set_finish _ i TaskPhase.failed rfl hg
      simp only [countInFlight] at ih ⊢
      omega

/-- The calls one successful `get` pass issues for a list of artifacts, in
list order: one recursive directory creation then one download per
artifact. -/
def getEvents (cfg : ManifestConfiguration) : List Artifact → List Event
  | [] => []
  | a :: rest =>
    Event.mkdirParents (parentDir (localPathOf cfg a)) ::
      Event.downloadFile cfg.bucket (remoteKey cfg a) (localPathOf cfg a) ::
        getEvents cfg rest

/-- The calls one successful `store` pass issues: one upload per artifact,
in list order. -/
def storeEvents (cfg : ManifestConfiguration) : List Artifact → List Event
  | [] => []
  | a :: rest =>
    Event.uploadFile (localPathOf cfg a) cfg.bucket (remoteKey cfg a) ::
      storeEvents cfg rest

theorem get_artifact_ok (m : Manifest) (client : S3Client) (a : Artifact)
    (w : World) (c : Content)
    (h : client.download m.config.bucket (remoteKey m.config a) = Except.ok c) :
    m.get_artifact client a w =
      (⟨(localPathOf m.config a, c) :: w.files,
        w.dirs ++ dirChain (parentDir (localPathOf m.config a)),
        w.events ++
          [Event.mkdirParents (parentDir (localPathOf m.config a)),
           Event.downloadFile m.config.bucket (remoteKey m.config a)
             (localPathOf m.config a)]⟩,
       none) := by
  simp [Manifest.get_artifact, mkdirParents, h]

theorem get_artifact_err (m : Manifest) (client : S3Client) (a : Artifact)
    (w : World) (e : TransferError)
    (h : client.download m.config.bucket (remoteKey m.config a) = Except.error e) :
    m.get_artifact client a w =
      (⟨w.files,
        w.dirs ++ dirChain (parentDir (localPathOf m.config a)),
        w.events ++
          [Event.mkdirParents (parentDir (localPathOf m.config a)),
           Event.downloadFile m.config.bucket (remoteKey m.config a)
             (localPathOf m.config a)]⟩,
       some e) := by
  simp [Manifest.get_artifact, mkdirParents, h]

theorem store_artifact_ok (m : Manifest) (client : S3Client) (a : Artifact)
    (w : World) (c : Content)
    (h1 : List.lookup (localPathOf m.config a) w.files = some c)
    (h2 : client.upload m.config.bucket (remoteKey m.config a) c = Except.ok ()) :
    m.store_artifact client a w =
      (⟨w.files, w.dirs,
        w.events ++
          [Event.uploadFile (localPathOf m.config a) m.config.bucket
            (remoteKey m.config a)]⟩,
       none) := by
  simp [Manifest.store_artifact, h1, h2]

theorem store_artifact_err (m : Manifest) (client : S3Client) (a : Artifact)
    (w : World) (c : Content) (e : TransferError)
    (h1 : List.lookup (localPathOf m.config a) w.files = some c)
    (h2 : client.upload m.config.bucket (remoteKey m.config a) c = Except.error e) :
    m.store_artifact client a w =
      (⟨w.files, w.dirs,
        w.events ++
          [Event.uploadFile (localPathOf m.config a) m.config.bucket
            (remoteKey m.config a)]⟩,
       some e) := by
  simp [Manifest.store_artifact, h1, h2]

theorem getLoop_ok (m : Manifest) (client : S3Client) :
    ∀ (l : List Artifact) (w : World),
      (∀ a ∈ l, ∃ c,
        client.download m.config.bucket (remoteKey m.config a) = Except.ok c) →
      (m.getLoop client l w).2 = Except.ok ⟨⟩ ∧
      (m.getLoop client l w).1.events = w.events ++ getEvents m.config l ∧
      w.dirs ⊆ (m.getLoop client l w).1.dirs ∧
      ∀ a ∈ l, dirChain (parentDir (localPathOf m.config a)) ⊆
        (m.getLoop client l w).1.dirs := by
  intro l
  induction l with
  | nil =>
    intro w _
    simp [Manifest.getLoop, getEvents]
  | cons a rest ih =>
    intro w h
    obtain ⟨c, hc⟩ := h a (by simp)
    have hrest : ∀ b ∈ rest, ∃ cb,
        client.download m.config.bucket (remoteKey m.config b) = Except.ok cb :=
      fun b hb => h b (by simp [hb])
    have hstep := get_artifact_ok m client a w c hc
    have ihw := ih (⟨(localPathOf m.config a, c) :: w.files,
      w.dirs ++ dirChain (parentDir (localPathOf m.config a)),
      w.events ++
        [Event.mkdirParents (parentDir (localPathOf m.config a)),
         Event.downloadFile m.config.bucket (remoteKey m.config a)
           (localPathOf m.config a)]⟩) hrest
    obtain ⟨ih1, ih2, ih3, ih4⟩ := ihw
    simp only [Manifest.getLoop, hstep]
    refine ⟨ih1, ?_, ?_, ?_⟩
    · rw [ih2]
      simp [getEvents]
    · intro d hd
      exact ih3 (by simp [hd])
    · intro b hb
      rcases List.mem_cons.mp hb with hba | hbr
      · subst hba
        intro d hd
        exact ih3 (by simp [hd])
      · exact ih4 b hbr

theorem storeLoop_ok (m : Manifest) (client : S3Client) :
    ∀ (l : List Artifact) (w : World),
      (∀ a ∈ l, ∃ c, List.lookup (localPathOf m.config a) w.files = some c ∧
        client.upload m.config.bucket (remoteKey m.config a) c = Except.ok ()) →
      (m.storeLoop client l w).2 = Except.ok ⟨⟩ ∧
      (m.storeLoop client l w).1.events = w.events ++ storeEvents m.config l ∧
      (m.storeLoop client l w).1.files = w.files ∧
      (m.storeLoop client l w).1.dirs = w.dirs := by
  intro l
  induction l with
  | nil =>
    intro w _
    simp [Manifest.storeLoop, storeEvents]
  | cons a rest ih =>
    intro w h
    obtain ⟨c, hc1, hc2⟩ := h a (by simp)
    have hstep := store_artifact_ok m client a w c hc1 hc2
    have ihw := ih (⟨w.files, w.dirs,
      w.events ++
        [Event.uploadFile (localPathOf m.config a) m.config.bucket
          (remoteKey m.config a)]⟩)
      (fun b hb => h b (by simp [hb]))
    obtain ⟨ih1, ih2, ih3, ih4⟩ := ihw
    simp only [Manifest.storeLoop, hstep]
    refine ⟨ih1, ?_, ih3, ih4⟩
    rw [ih2]
    simp [storeEvents]

theorem getLoop_err (m : Manifest) (client : S3Client) :
    ∀ (l1 : List Artifact) (a : Artifact) (l2 : List Artifact) (w : World)
      (e : TransferError),
      (∀ b ∈ l1, ∃ c,
        client.download m.config.bucket (remoteKey m.config b) = Except.ok c) →
      client.download m.config.bucket (remoteKey m.config a) = Except.error e →
      m.getLoop client (l1 ++ a :: l2) w =
        (⟨(m.getLoop client l1 w).1.files,
          (m.getLoop client l1 w).1.dirs ++
            dirChain (parentDir (localPathOf m.config a)),
          (m.getLoop client l1 w).1.events ++
            [Event.mkdirParents (parentDir (localPathOf m.config a)),
             Event.downloadFile m.config.bucket (remoteKey m.config a)
               (localPathOf m.config a)]⟩,
         Except.error e) := by
  intro l1
  induction l1 with
  | nil =>
    intro a l2 w e _ he
    simp only [List.nil_append, Manifest.getLoop, get_artifact_err m client a w e he]
  | cons b rest ih =>
    intro a l2 w e h he
    obtain ⟨c, hc⟩ := h b (by simp)
    have hstep := get_artifact_ok m client b w c hc
    simp only [List.cons_append, Manifest.getLoop, hstep]
    exact ih a l2 _ e (fun x hx => h x (by simp [hx])) he

theorem storeLoop_err (m : Manifest) (client : S3Client) :
    ∀ (l1 : List Artifact) (a : Artifact) (l2 : List Artifact) (w : World)
      (c : Content) (e : TransferError),
      (∀ b ∈ l1, ∃ cb, List.lookup (localPathOf m.config b) w.files = some cb ∧
        client.upload m.config.bucket (remoteKey m.config b) cb = Except.ok ()) →
      List.lookup (localPathOf m.config a) w.files = some c →
      client.upload m.config.bucket (remoteKey m.config a) c = Except.error e →
      m.storeLoop client (l1 ++ a :: l2) w =
        (⟨w.files, w.dirs,
          w.events ++ storeEvents m.config l1 ++
            [Event.uploadFile (localPathOf m.config a) m.config.bucket
              (remoteKey m.config a)]⟩,
         Except.error e) := by
  intro l1
  induction l1 with
  | nil =>
    intro a l2 w c e _ hl he
    simp only [List.nil_append, Manifest.storeLoop,
      store_artifact_err m client a w c e hl he, storeEvents, List.append_nil]
  | cons b rest ih =>
    intro a l2 w c e h hl he
    obtain ⟨cb, hc1, hc2⟩ := h b (by simp)
    have hstep := store_artifact_ok m client b w cb hc1 hc2
    simp only [List.cons_append, Manifest.storeLoop, hstep, List.append_eq]
    have := ih a l2 (⟨w.files, w.dirs,
      w.events ++
        [Event.uploadFile (localPathOf m.config b) m.config.bucket
          (remoteKey m.config b)]⟩) c e
      (fun x hx => h x (by simp [hx])) hl he
    rw [this]
    simp [storeEvents]

theorem getLoop_lookup_preserved (m : Manifest) (client : S3Client) :
    ∀ (l : List Artifact) (w : World) (p : String),
      (∀ a ∈ l, ∃ c,
        client.download m.config.bucket (remoteKey m.config a) = Except.ok c) →
      (∀ a ∈ l, localPathOf m.config a ≠ p) →
      List.lookup p ((m.getLoop client l w).1.files) = List.lookup p w.files := by
  intro l
  induction l with
  | nil =>
    intro w p _ _
    simp [Manifest.getLoop]
  | cons a rest ih =>
    intro w p h hp
    obtain ⟨c, hc⟩ := h a (by simp)
    have hstep := get_artifact_ok m client a w c hc
    simp only [Manifest.getLoop, hstep]
    rw [ih _ p (fun b hb => h b (by simp [hb])) (fun b hb => hp b (by simp [hb]))]
    have hne : (p == localPathOf m.config a) = false :=
      beq_eq_false_iff_ne.mpr (Ne.symm (hp a (by simp)))
    simp [List.lookup, hne]

theorem getLoop_lookup_last (m : Manifest) (client : S3Client) :
    ∀ (l1 : List Artifact) (a : Artifact) (l2 : List Artifact) (w : World)
      (c : Content),
      (∀ b ∈ l1, ∃ cb,
        client.download m.config.bucket (remoteKey m.config b) = Except.ok cb) →
      (∀ b ∈ l2, ∃ cb,
        client.download m.config.bucket (remoteKey m.config b) = Except.ok cb) →
      (∀ b ∈ l2, localPathOf m.config b ≠ localPathOf m.config a) →
      client.download m.config.bucket (remoteKey m.config a) = Except.ok c →
      List.lookup (localPathOf m.config a)
        ((m.getLoop client (l1 ++ a :: l2) w).1.files) = some c := by
  intro l1
  induction l1 with
  | nil =>
    intro a l2 w c _ h2 hp hc
    have hstep := get_artifact_ok m client a w c hc
    simp only [List.nil_append, Manifest.getLoop, hstep]
    rw [getLoop_lookup_preserved m client l2 _ _ h2 hp]
    simp [List.lookup]
  | cons b rest ih =>
    intro a l2 w c h1 h2 hp hc
    obtain ⟨cb, hcb⟩ := h1 b (by simp)
    have hstep := get_artifact_ok m client b w cb hcb
    simp only [List.cons_append, Manifest.getLoop, hstep]
    exact ih a l2 _ c (fun x hx => h1 x (by simp [hx])) h2 hp hc

/-- Keyword arguments of the SKIP-policy scenario of the repository test
suite: the `local_policy` key is not a declared field of the source
`ManifestConfiguration`, so pydantic ignores it. -/
def skipKwargs : Fields :=
  [("bucket", FieldValue.str "test_bucket"),
   ("local_policy", FieldValue.str "SKIP")]

/-- The manifest of that scenario: one artifact named `test` at local
path `test_file`. -/
def skipManifest : Manifest :=
  ⟨⟨"test_bucket", "", "", 50⟩, [⟨"test", "test_file"⟩]⟩

/-- A storage client whose every download yields the bytes
`downloaded`. -/
def skipClient : S3Client :=
  ⟨fun _ _ => Except.ok "downloaded", fun _ _ _ => Except.ok ()⟩

/-- The pre-state of the scenario: the local file already exists with
content `existing content`. -/
def skipWorld : World :=
  ⟨[("test_file", "existing content")], [], []⟩

/-- C1: the claim says that under `local_policy = SKIP` an artifact whose
local file already exists is not downloaded and the file is left
unchanged.  The source has no policy gate at all: `get_artifact` always
calls `download_file`.  Evaluated at the exact scenario of the repository
test `test_skip_policy_existing_file` (whose assertions the source
therefore violates): the SKIP keyword is silently ignored at construction,
the file exists beforehand, yet `get()` issues a download call and the
file ends up overwritten with the downloaded bytes. -/
theorem C1_skip_policy_code_bug_eval :
    ManifestConfiguration.validate skipKwargs = Except.ok skipManifest.config ∧
    List.lookup "test_file" skipWorld.files = some "existing content" ∧
    (skipManifest.get skipClient skipWorld).2 = Except.ok ⟨⟩ ∧
    (skipManifest.get skipClient skipWorld).1.events =
      [Event.mkdirParents ".",
       Event.downloadFile "test_bucket" "test" "test_file"] ∧
    List.lookup "test_file" (skipManifest.get skipClient skipWorld).1.files =
      some "downloaded" := by
  exact ⟨rfl, rfl, rfl, rfl, rfl⟩

/-- C2: the claim says construction with an unrecognized `local_policy`
value fails with a validation error.  The source `ManifestConfiguration`
declares no `local_policy` field, so the unrecognized value is ignored by
default pydantic extra handling and construction succeeds — contradicting
the repository test `test_invalid_policy`, which expects a
`ValidationError` at exactly this input. -/
theorem C2_invalid_policy_code_bug_eval :
    ManifestConfiguration.validate
      [("bucket", FieldValue.str "test_bucket"),
       ("local_policy", FieldValue.str "invalid")] =
      Except.ok ⟨"test_bucket", "", "", 50⟩ := by
  rfl

/-- A manifest in which two artifacts resolve to the same local path
`f` under different remote keys. -/
def dupManifest : Manifest :=
  ⟨⟨"bkt", "", "", 50⟩, [⟨"a", "f"⟩, ⟨"b", "f"⟩]⟩

/-- A storage client returning bytes `A` for key `a` and bytes `B` for
every other key. -/
def dupClient : S3Client :=
  ⟨fun _ k => if k = "a" then Except.ok "A" else Except.ok "B",
   fun _ _ _ => Except.ok ()⟩

/-- The empty world: no files, no directories, no calls issued yet. -/
def emptyWorld : World := ⟨[], [], []⟩

/-- C3, counterexample: the claim asserts that after a successful `get()`
EVERY artifact has, at its computed local path, exactly the bytes the
client returned for that artifact.  When two artifacts share a local path
the later download overwrites the earlier one, so the first artifact ends
up with the bytes of the second.  Concretely: artifacts `a` and `b` both
at path `f`, client bytes `A` for the first and `B` for the second; after
a successful `get()` the path holds `B`, not the first artifact bytes
`A`. -/
theorem C3_overwrite_counterexample :
    ManifestConfiguration.validate
      [("bucket", FieldValue.str "bkt"),
       ("local_policy", FieldValue.str "OVERWRITE")] =
      Except.ok dupManifest.config ∧
    (dupManifest.get dupClient emptyWorld).2 = Except.ok ⟨⟩ ∧
    Artifact.mk "a" "f" ∈ dupManifest.artifacts ∧
    dupClient.download dupManifest.config.bucket
      (remoteKey dupManifest.config ⟨"a", "f"⟩) = Except.ok "A" ∧
    List.lookup (localPathOf dupManifest.config ⟨"a", "f"⟩)
      (dupManifest.get dupClient emptyWorld).1.files ≠ some "A" := by
  refine ⟨rfl, rfl, List.mem_cons_self _ _, rfl, ?_⟩
  rw [show List.lookup (localPathOf dupManifest.config ⟨"a", "f"⟩)
    (dupManifest.get dupClient emptyWorld).1.files = some "B" from rfl]
  decide

/-- C3, amended: under the source (which has no `local_policy` gate and
always downloads — overwrite behavior for every configuration), after a
successful `get()` each artifact whose computed local path is not written
again by a later artifact of the list holds exactly the bytes the client
returned for its remote key; in particular this is every artifact whenever
the computed local paths are pairwise distinct. -/
theorem C3_overwrite_content (m : Manifest) (client : S3Client) (w : World)
    (l1 l2 : List Artifact) (a : Artifact) (c : Content)
    (hsplit : m.artifacts = l1 ++ a :: l2)
    (h1 : ∀ b ∈ l1, ∃ cb,
      client.download m.config.bucket (remoteKey m.config b) = Except.ok cb)
    (h2 : ∀ b ∈ l2, ∃ cb,
      client.download m.config.bucket (remoteKey m.config b) = Except.ok cb)
    (hp : ∀ b ∈ l2, localPathOf m.config b ≠ localPathOf m.config a)
    (hc : client.download m.config.bucket (remoteKey m.config a) = Except.ok c) :
    (m.get client w).2 = Except.ok ⟨⟩ ∧
    List.lookup (localPathOf m.config a) (m.get client w).1.files = some c := by
  have hall : ∀ b ∈ m.artifacts, ∃ cb,
      client.download m.config.bucket (remoteKey m.config b) = Except.ok cb := by
    intro b hb
    rw [hsplit] at hb
    rcases List.mem_append.mp hb with hbl | hbr
    · exact h1 b hbl
    · rcases List.mem_cons.mp hbr with hba | hbl2
      · subst hba; exact ⟨c, hc⟩
      · exact h2 b hbl2
  refine ⟨(getLoop_ok m client m.artifacts w hall).1, ?_⟩
  rw [Manifest.get, hsplit]
  exact getLoop_lookup_last m client l1 a l2 w c
    (fun b hb => h1 b hb) h2 hp hc

/-- C3, witness: the amended theorem applied to a one-artifact manifest
with fresh local file and client bytes `X`. -/
theorem C3_overwrite_content_witness :
    ((⟨⟨"b", "", "", 50⟩, [⟨"x", "f"⟩]⟩ : Manifest).get
        ⟨fun _ _ => Except.ok "X", fun _ _ _ => Except.ok ()⟩ emptyWorld).2 =
      Except.ok ⟨⟩ ∧
    List.lookup (localPathOf (⟨"b", "", "", 50⟩ : ManifestConfiguration) ⟨"x", "f"⟩)
      ((⟨⟨"b", "", "", 50⟩, [⟨"x", "f"⟩]⟩ : Manifest).get
        ⟨fun _ _ => Except.ok "X", fun _ _ _ => Except.ok ()⟩ emptyWorld).1.files =
      some "X" :=
  C3_overwrite_content ⟨⟨"b", "", "", 50⟩, [⟨"x", "f"⟩]⟩
    ⟨fun _ _ => Except.ok "X", fun _ _ _ => Except.ok ()⟩ emptyWorld
    [] [] ⟨"x", "f"⟩ "X" rfl (by simp) (by simp) (by simp) rfl

/-- C4: `get()` processes the artifacts strictly in list order; for each
artifact the remote key is the configured remote lead string concatenated
with the artifact name and the local path is the configured local base
joined with the artifact path; the recursive creation of the missing
parent directories of the local path is issued before the transfer (the
trace interleaves exactly one `mkdirParents` then one `downloadFile` per
artifact, in list order, with those computed values), the parent chain
exists in the final state, and on success — in particular for an empty
artifact list, which issues no call at all — the empty
`GetManifestResult` is returned. -/
theorem C4_get_contract (m : Manifest) (client : S3Client) (w : World)
    (h : ∀ a ∈ m.artifacts, ∃ c,
      client.download m.config.bucket (remoteKey m.config a) = Except.ok c) :
    (m.get client w).2 = Except.ok ⟨⟩ ∧
    (m.get client w).1.events = w.events ++ getEvents m.config m.artifacts ∧
    (∀ a ∈ m.artifacts, dirChain (parentDir (localPathOf m.config a)) ⊆
      (m.get client w).1.dirs) ∧
    (m.artifacts = [] → (m.get client w).1.events = w.events) := by
  obtain ⟨h1, h2, _, h4⟩ := getLoop_ok m client m.artifacts w h
  refine ⟨h1, h2, h4, fun he => ?_⟩
  show (m.getLoop client m.artifacts w).1.events = w.events
  rw [h2, he]
  simp [getEvents]

/-- C4, witness: a two-artifact manifest with nontrivial remote and local
lead strings, a client that always succeeds, run from the empty world. -/
theorem C4_get_contract_witness :
    ((⟨⟨"bkt", "pre-", "base", 50⟩, [⟨"n1", "d/f1"⟩, ⟨"n2", "f2"⟩]⟩ : Manifest).get
        ⟨fun _ _ => Except.ok "X", fun _ _ _ => Except.ok ()⟩ emptyWorld).2 =
      Except.ok ⟨⟩ ∧
    ((⟨⟨"bkt", "pre-", "base", 50⟩, [⟨"n1", "d/f1"⟩, ⟨"n2", "f2"⟩]⟩ : Manifest).get
        ⟨fun _ _ => Except.ok "X", fun _ _ _ => Except.ok ()⟩ emptyWorld).1.events =
      emptyWorld.events ++
        getEvents ⟨"bkt", "pre-", "base", 50⟩ [⟨"n1", "d/f1"⟩, ⟨"n2", "f2"⟩] ∧
    (∀ a ∈ ([⟨"n1", "d/f1"⟩, ⟨"n2", "f2"⟩] : List Artifact),
      dirChain (parentDir (localPathOf ⟨"bkt", "pre-", "base", 50⟩ a)) ⊆
        ((⟨⟨"bkt", "pre-", "base", 50⟩, [⟨"n1", "d/f1"⟩, ⟨"n2", "f2"⟩]⟩ : Manifest).get
          ⟨fun _ _ => Except.ok "X", fun _ _ _ => Except.ok ()⟩ emptyWorld).1.dirs) ∧
    (([⟨"n1", "d/f1"⟩, ⟨"n2", "f2"⟩] : List Artifact) = [] →
      ((⟨⟨"bkt", "pre-", "base", 50⟩, [⟨"n1", "d/f1"⟩, ⟨"n2", "f2"⟩]⟩ : Manifest).get
        ⟨fun _ _ => Except.ok "X", fun _ _ _ => Except.ok ()⟩ emptyWorld).1.events =
        emptyWorld.events) :=
  C4_get_contract ⟨⟨"bkt", "pre-", "base", 50⟩, [⟨"n1", "d/f1"⟩, ⟨"n2", "f2"⟩]⟩
    ⟨fun _ _ => Except.ok "X", fun _ _ _ => Except.ok ()⟩ emptyWorld
    (fun _ _ => ⟨"X", rfl⟩)

theorem storeEvents_length (cfg : ManifestConfiguration) :
    ∀ (l : List Artifact), (storeEvents cfg l).length = l.length := by
  intro l
  induction l with
  | nil => rfl
  | cons a rest ih => simp [storeEvents, ih]

/-- C5: `store()` issues exactly one upload call per artifact of the
manifest, unconditionally and in list order — the trace gains exactly
`storeEvents`, one `uploadFile` per artifact, computed from the same
`remoteKey` and `localPathOf` as `get()` uses; there is no remote
existence check (uploads are the only calls `store` issues) and no
policy gate: the statement quantifies over every configuration, so it
covers in particular any construction attempt that mentioned
`local_policy = SKIP` (the source ignores that keyword). -/
theorem C5_store_contract (m : Manifest) (client : S3Client) (w : World)
    (h : ∀ a ∈ m.artifacts, ∃ c,
      List.lookup (localPathOf m.config a) w.files = some c ∧
      client.upload m.config.bucket (remoteKey m.config a) c = Except.ok ()) :
    (m.store client w).2 = Except.ok ⟨⟩ ∧
    (m.store client w).1.events = w.events ++ storeEvents m.config m.artifacts ∧
    (storeEvents m.config m.artifacts).length = m.artifacts.length ∧
    (m.store client w).1.files = w.files ∧
    (m.store client w).1.dirs = w.dirs := by
  obtain ⟨h1, h2, h3, h4⟩ := storeLoop_ok m client m.artifacts w h
  exact ⟨h1, h2, storeEvents_length m.config m.artifacts, h3, h4⟩

/-- C5, witness: a one-artifact manifest whose local file exists, with a
client accepting the upload. -/
theorem C5_store_contract_witness :
    ((⟨⟨"bkt", "p-", "", 50⟩, [⟨"n", "f"⟩]⟩ : Manifest).store
        ⟨fun _ _ => Except.ok "X", fun _ _ _ => Except.ok ()⟩
        ⟨[("f", "data")], [], []⟩).2 = Except.ok ⟨⟩ ∧
    ((⟨⟨"bkt", "p-", "", 50⟩, [⟨"n", "f"⟩]⟩ : Manifest).store
        ⟨fun _ _ => Except.ok "X", fun _ _ _ => Except.ok ()⟩
        ⟨[("f", "data")], [], []⟩).1.events =
      (⟨[("f", "data")], [], []⟩ : World).events ++
        storeEvents ⟨"bkt", "p-", "", 50⟩ [⟨"n", "f"⟩] ∧
    (storeEvents (⟨"bkt", "p-", "", 50⟩ : ManifestConfiguration) [⟨"n", "f"⟩]).length =
      ([⟨"n", "f"⟩] : List Artifact).length ∧
    ((⟨⟨"bkt", "p-", "", 50⟩, [⟨"n", "f"⟩]⟩ : Manifest).store
        ⟨fun _ _ => Except.ok "X", fun _ _ _ => Except.ok ()⟩
        ⟨[("f", "data")], [], []⟩).1.files = (⟨[("f", "data")], [], []⟩ : World).files ∧
    ((⟨⟨"bkt", "p-", "", 50⟩, [⟨"n", "f"⟩]⟩ : Manifest).store
        ⟨fun _ _ => Except.ok "X", fun _ _ _ => Except.ok ()⟩
        ⟨[("f", "data")], [], []⟩).1.dirs = (⟨[("f", "data")], [], []⟩ : World).dirs :=
  C5_store_contract ⟨⟨"bkt", "p-", "", 50⟩, [⟨"n", "f"⟩]⟩
    ⟨fun _ _ => Except.ok "X", fun _ _ _ => Except.ok ()⟩
    ⟨[("f", "data")], [], []⟩
    (by
      intro a ha
      rcases List.mem_cons.mp ha with hae | hnil
      · subst hae
        exact ⟨"data", rfl, rfl⟩
      · cases hnil)

/-- C6: if the storage client raises during one artifact of a `get()` or
`store()` batch, the batch raises that same error immediately: the result
is exactly that error (no result object), the trace contains the calls for
the artifacts before the failure followed only by the failed attempt —
nothing for the artifacts after it — and everything already transferred
stays as transferred: for `get`, the files are exactly those after the
successful leading segment (the failed download writes nothing and nothing
is rolled back); for `store`, the local files are untouched and the
uploads of the leading segment remain issued. -/
theorem C6_error_propagation :
    (∀ (m : Manifest) (client : S3Client) (w : World) (l1 l2 : List Artifact)
        (a : Artifact) (e : TransferError),
      m.artifacts = l1 ++ a :: l2 →
      (∀ b ∈ l1, ∃ c,
        client.download m.config.bucket (remoteKey m.config b) = Except.ok c) →
      client.download m.config.bucket (remoteKey m.config a) = Except.error e →
      (m.get client w).2 = Except.error e ∧
      (m.get client w).1.files = (m.getLoop client l1 w).1.files ∧
      (m.get client w).1.events =
        (m.getLoop client l1 w).1.events ++
          [Event.mkdirParents (parentDir (localPathOf m.config a)),
           Event.downloadFile m.config.bucket (remoteKey m.config a)
             (localPathOf m.config a)]) ∧
    (∀ (m : Manifest) (client : S3Client) (w : World) (l1 l2 : List Artifact)
        (a : Artifact) (c : Content) (e : TransferError),
      m.artifacts = l1 ++ a :: l2 →
      (∀ b ∈ l1, ∃ cb, List.lookup (localPathOf m.config b) w.files = some cb ∧
        client.upload m.config.bucket (remoteKey m.config b) cb = Except.ok ()) →
      List.lookup (localPathOf m.config a) w.files = some c →
      client.upload m.config.bucket (remoteKey m.config a) c = Except.error e →
      (m.store client w).2 = Except.error e ∧
      (m.store client w).1.files = w.files ∧
      (m.store client w).1.events =
        w.events ++ storeEvents m.config l1 ++
          [Event.uploadFile (localPathOf m.config a) m.config.bucket
            (remoteKey m.config a)]) := by
  constructor
  · intro m client w l1 l2 a e hsplit hpre herr
    have hloop := getLoop_err m client l1 a l2 w e hpre herr
    refine ⟨?_, ?_, ?_⟩
    · show (m.getLoop client m.artifacts w).2 = Except.error e
      rw [hsplit, hloop]
    · show (m.getLoop client m.artifacts w).1.files =
        (m.getLoop client l1 w).1.files
      rw [hsplit, hloop]
    · show (m.getLoop client m.artifacts w).1.events = _
      rw [hsplit, hloop]
  · intro m client w l1 l2 a c e hsplit hpre hlk herr
    have hloop := storeLoop_err m client l1 a l2 w c e hpre hlk herr
    refine ⟨?_, ?_, ?_⟩
    · show (m.storeLoop client m.artifacts w).2 = Except.error e
      rw [hsplit, hloop]
    · show (m.storeLoop client m.artifacts w).1.files = w.files
      rw [hsplit, hloop]
    · show (m.storeLoop client m.artifacts w).1.events = _
      rw [hsplit, hloop]

/-- C6, witness: a two-artifact batch where the second artifact fails, for
the download direction and the upload direction. -/
theorem C6_error_propagation_witness :
    (((⟨⟨"bkt", "", "", 50⟩, [⟨"g1", "f1"⟩, ⟨"g2", "f2"⟩]⟩ : Manifest).get
        ⟨fun _ k => if k = "g1" then Except.ok "X"
            else Except.error (TransferError.clientError "boom"),
          fun _ _ _ => Except.ok ()⟩ emptyWorld).2 =
      Except.error (TransferError.clientError "boom") ∧
    ((⟨⟨"bkt", "", "", 50⟩, [⟨"g1", "f1"⟩, ⟨"g2", "f2"⟩]⟩ : Manifest).get
        ⟨fun _ k => if k = "g1" then Except.ok "X"
            else Except.error (TransferError.clientError "boom"),
          fun _ _ _ => Except.ok ()⟩ emptyWorld).1.files =
      ((⟨⟨"bkt", "", "", 50⟩, [⟨"g1", "f1"⟩, ⟨"g2", "f2"⟩]⟩ : Manifest).getLoop
        ⟨fun _ k => if k = "g1" then Except.ok "X"
            else Except.error (TransferError.clientError "boom"),
          fun _ _ _ => Except.ok ()⟩ [⟨"g1", "f1"⟩] emptyWorld).1.files ∧
    ((⟨⟨"bkt", "", "", 50⟩, [⟨"g1", "f1"⟩, ⟨"g2", "f2"⟩]⟩ : Manifest).get
        ⟨fun _ k => if k = "g1" then Except.ok "X"
            else Except.error (TransferError.clientError "boom"),
          fun _ _ _ => Except.ok ()⟩ emptyWorld).1.events =
      ((⟨⟨"bkt", "", "", 50⟩, [⟨"g1", "f1"⟩, ⟨"g2", "f2"⟩]⟩ : Manifest).getLoop
        ⟨fun _ k => if k = "g1" then Except.ok "X"
            else Except.error (TransferError.clientError "boom"),
          fun _ _ _ => Except.ok ()⟩ [⟨"g1", "f1"⟩] emptyWorld).1.events ++
        [Event.mkdirParents (parentDir (localPathOf ⟨"bkt", "", "", 50⟩ ⟨"g2", "f2"⟩)),
         Event.downloadFile "bkt" (remoteKey ⟨"bkt", "", "", 50⟩ ⟨"g2", "f2"⟩)
           (localPathOf ⟨"bkt", "", "", 50⟩ ⟨"g2", "f2"⟩)]) ∧
    (((⟨⟨"bkt", "", "", 50⟩, [⟨"s1", "h1"⟩, ⟨"s2", "h2"⟩]⟩ : Manifest).store
        ⟨fun _ _ => Except.ok "X",
          fun _ k _ => if k = "s1" then Except.ok ()
            else Except.error (TransferError.clientError "denied")⟩
        ⟨[("h1", "c1"), ("h2", "c2")], [], []⟩).2 =
      Except.error (TransferError.clientError "denied") ∧
    ((⟨⟨"bkt", "", "", 50⟩, [⟨"s1", "h1"⟩, ⟨"s2", "h2"⟩]⟩ : Manifest).store
        ⟨fun _ _ => Except.ok "X",
          fun _ k _ => if k = "s1" then Except.ok ()
            else Except.error (TransferError.clientError "denied")⟩
        ⟨[("h1", "c1"), ("h2", "c2")], [], []⟩).1.files =
      (⟨[("h1", "c1"), ("h2", "c2")], [], []⟩ : World).files ∧
    ((⟨⟨"bkt", "", "", 50⟩, [⟨"s1", "h1"⟩, ⟨"s2", "h2"⟩]⟩ : Manifest).store
        ⟨fun _ _ => Except.ok "X",
          fun _ k _ => if k = "s1" then Except.ok ()
            else Except.error (TransferError.clientError "denied")⟩
        ⟨[("h1", "c1"), ("h2", "c2")], [], []⟩).1.events =
      (⟨[("h1", "c1"), ("h2", "c2")], [], []⟩ : World).events ++
        storeEvents ⟨"bkt", "", "", 50⟩ [⟨"s1", "h1"⟩] ++
        [Event.uploadFile (localPathOf ⟨"bkt", "", "", 50⟩ ⟨"s2", "h2"⟩) "bkt"
          (remoteKey ⟨"bkt", "", "", 50⟩ ⟨"s2", "h2"⟩)]) :=
  ⟨C6_error_propagation.1 ⟨⟨"bkt", "", "", 50⟩, [⟨"g1", "f1"⟩, ⟨"g2", "f2"⟩]⟩
      ⟨fun _ k => if k = "g1" then Except.ok "X"
          else Except.error (TransferError.clientError "boom"),
        fun _ _ _ => Except.ok ()⟩ emptyWorld
      [⟨"g1", "f1"⟩] [] ⟨"g2", "f2"⟩ (TransferError.clientError "boom")
      rfl
      (by
        intro b hb
        rcases List.mem_cons.mp hb with hbe | hnil
        · subst hbe; exact ⟨"X", rfl⟩
        · cases hnil)
      rfl,
   C6_error_propagation.2 ⟨⟨"bkt", "", "", 50⟩, [⟨"s1", "h1"⟩, ⟨"s2", "h2"⟩]⟩
      ⟨fun _ _ => Except.ok "X",
        fun _ k _ => if k = "s1" then Except.ok ()
          else Except.error (TransferError.clientError "denied")⟩
      ⟨[("h1", "c1"), ("h2", "c2")], [], []⟩
      [⟨"s1", "h1"⟩] [] ⟨"s2", "h2"⟩ "c2" (TransferError.clientError "denied")
      rfl
      (by
        intro b hb
        rcases List.mem_cons.mp hb with hbe | hnil
        · subst hbe; exact ⟨"c1", rfl, rfl⟩
        · cases hnil)
      rfl rfl⟩

theorem validate_ok_max_concurrent (kws : Fields) (cfg : ManifestConfiguration)
    (hv : ManifestConfiguration.validate kws = Except.ok cfg) :
    intFieldD kws "max_concurrent" 50 = Except.ok cfg.max_concurrent := by
  unfold ManifestConfiguration.validate at hv
  split at hv
  · split at hv
    · exact Except.noConfusion hv
    · split at hv
      · injection hv with hv
        rw [← hv]
        assumption
      · exact Except.noConfusion hv
      · exact Except.noConfusion hv
      · exact Except.noConfusion hv
  · exact Except.noConfusion hv
  · exact Except.noConfusion hv

/-- C7, counterexample: the claim says a non-positive `max_concurrent` is
rejected at construction.  The source field carries no positivity
constraint, so constructing with `max_concurrent = 0` succeeds, and the
resulting configuration holds a non-positive value. -/
theorem C7_max_concurrent_counterexample :
    ManifestConfiguration.validate
      [("bucket", FieldValue.str "b"), ("max_concurrent", FieldValue.int 0)] =
      Except.ok ⟨"b", "", "", 0⟩ ∧
    ¬ (0 < (0 : Int)) := by
  exact ⟨rfl, by decide⟩

/-- C7, amended: `max_concurrent` is a strict integer field defaulting to
50 when not supplied; any supplied integer — non-positive values included
— is accepted at construction, the value passing through unchecked. -/
theorem C7_max_concurrent_amended :
    (∀ (kws : Fields) (cfg : ManifestConfiguration),
      lookupField kws "max_concurrent" = none →
      ManifestConfiguration.validate kws = Except.ok cfg →
      cfg.max_concurrent = 50) ∧
    (∀ (kws : Fields) (cfg : ManifestConfiguration) (n : Int),
      lookupField kws "max_concurrent" = some (FieldValue.int n) →
      ManifestConfiguration.validate kws = Except.ok cfg →
      cfg.max_concurrent = n) ∧
    (∀ (n : Int),
      ManifestConfiguration.validate
        [("bucket", FieldValue.str "b"), ("max_concurrent", FieldValue.int n)] =
        Except.ok ⟨"b", "", "", n⟩) := by
  refine ⟨?_, ?_, ?_⟩
  · intro kws cfg hmc hv
    have h := validate_ok_max_concurrent kws cfg hv
    rw [intFieldD, hmc] at h
    injection h with h
    exact h.symm
  · intro kws cfg n hmc hv
    have h := validate_ok_max_concurrent kws cfg hv
    rw [intFieldD, hmc] at h
    injection h with h
    exact h.symm
  · intro n
    rfl

/-- C7, witness: the amended theorem applied to a default construction
(no `max_concurrent` supplied, so 50), to an explicit construction with
`max_concurrent = -3`, and to the acceptance clause at 0. -/
theorem C7_max_concurrent_amended_witness :
    (⟨"b", "", "", 50⟩ : ManifestConfiguration).max_concurrent = 50 ∧
    (⟨"b", "", "", -3⟩ : ManifestConfiguration).max_concurrent = -3 ∧
    ManifestConfiguration.validate
      [("bucket", FieldValue.str "b"), ("max_concurrent", FieldValue.int 0)] =
      Except.ok ⟨"b", "", "", 0⟩ :=
  ⟨C7_max_concurrent_amended.1 [("bucket", FieldValue.str "b")]
      ⟨"b", "", "", 50⟩ rfl rfl,
   C7_max_concurrent_amended.2.1
      [("bucket", FieldValue.str "b"), ("max_concurrent", FieldValue.int (-3))]
      ⟨"b", "", "", -3⟩ (-3) rfl rfl,
   C7_max_concurrent_amended.2.2 0⟩

/-- C8: in the asynchronous edition (modelled from the spec, §5: the code
is not under `src/`; only its `max_concurrent` parameter is), all
per-artifact work units are created up front — `initBatch` holds one
created task per artifact and the full semaphore; every scheduler run
keeps the number of in-flight transfers at or below the semaphore
capacity `max_concurrent`; and the gather joining the batch yields a
result only once every task has finished, succeeding exactly when all
finished successfully and failing as a whole when any task failed. -/
theorem C8_async_bounded_concurrency :
    (∀ (cap n : Nat),
      (initBatch cap n).tasks.length = n ∧
      (∀ t ∈ (initBatch cap n).tasks, t = TaskPhase.created) ∧
      (initBatch cap n).avail = cap) ∧
    (∀ (cap n : Nat) (b : AsyncBatch),
      Relation.ReflTransGen BatchStep (initBatch cap n) b →
      countInFlight b ≤ cap) ∧
    (∀ (b : AsyncBatch) (r : Except Unit Unit),
      gatherResult b = some r →
      (∀ t ∈ b.tasks, t = TaskPhase.taskDone ∨ t = TaskPhase.failed) ∧
      (r = Except.ok () ↔ ∀ t ∈ b.tasks, t = TaskPhase.taskDone)) := by
  refine ⟨?_, ?_, ?_⟩
  · intro cap n
    refine ⟨by simp [initBatch], ?_, rfl⟩
    intro t ht
    exact List.eq_of_mem_replicate ht
  · intro cap n b h
    have := batch_invariant cap n b h
    omega
  · intro b r hg
    unfold gatherResult at hg
    by_cases h1 : b.tasks.any
        (fun t => t == TaskPhase.created || t == TaskPhase.inFlight)
    · rw [if_pos h1] at hg
      exact Option.noConfusion hg
    · rw [if_neg h1] at hg
      have hall : ∀ t ∈ b.tasks,
          t = TaskPhase.taskDone ∨ t = TaskPhase.failed := by
        intro t ht
        cases htk : t with
        | taskDone => exact Or.inl rfl
        | failed => exact Or.inr rfl
        | created =>
          exact absurd
            (List.any_eq_true.mpr ⟨TaskPhase.created, htk ▸ ht, by decide⟩) h1
        | inFlight =>
          exact absurd
            (List.any_eq_true.mpr ⟨TaskPhase.inFlight, htk ▸ ht, by decide⟩) h1
      by_cases h2 : b.tasks.any (· == TaskPhase.failed)
      · rw [if_pos h2] at hg
        injection hg with hg
        subst hg
        refine ⟨hall, ?_, ?_⟩
        · intro habs
          cases habs
        · intro hdone
          exfalso
          obtain ⟨t, ht, htf⟩ := List.any_eq_true.mp h2
          rw [hdone t ht] at htf
          exact absurd htf (by decide)
      · rw [if_neg h2] at hg
        injection hg with hg
        subst hg
        refine ⟨hall, ?_, ?_⟩
        · intro _ t ht
          rcases hall t ht with hd | hf
          · exact hd
          · exact absurd (List.any_eq_true.mpr ⟨t, ht, by rw [hf]; rfl⟩) h2
        · intro _
          rfl

/-- C8, witness: the up-front clause at capacity 2 with 3 artifacts, the
bound at the initial state of a capacity-1 batch of 2 tasks, and the
gather clause at a finished one-task batch. -/
theorem C8_async_bounded_concurrency_witness :
    ((initBatch 2 3).tasks.length = 3 ∧
      (∀ t ∈ (initBatch 2 3).tasks, t = TaskPhase.created) ∧
      (initBatch 2 3).avail = 2) ∧
    countInFlight (initBatch 1 2) ≤ 1 ∧
    ((∀ t ∈ (AsyncBatch.mk [TaskPhase.taskDone] 1).tasks,
        t = TaskPhase.taskDone ∨ t = TaskPhase.failed) ∧
      ((Except.ok () : Except Unit Unit) = Except.ok () ↔
        ∀ t ∈ (AsyncBatch.mk [TaskPhase.taskDone] 1).tasks,
          t = TaskPhase.taskDone)) :=
  ⟨C8_async_bounded_concurrency.1 2 3,
   C8_async_bounded_concurrency.2.1 1 2 (initBatch 1 2)
     Relation.ReflTransGen.refl,
   C8_async_bounded_concurrency.2.2 ⟨[TaskPhase.taskDone], 1⟩
     (Except.ok ()) rfl⟩

/-- C9: `from_env` raises the `KeyError` of `os.environ["ARTIFACTS_BUCKET"]`
when the bucket variable is unset, and when the two optional variables are
unset (and the bucket value is a nonempty string, so configuration
validation passes) it constructs the manifest with both the remote and the
local lead strings equal to the empty string and `max_concurrent` at its
default. -/
theorem C9_from_env (env : Env) (artifacts : List Artifact) :
    (env "ARTIFACTS_BUCKET" = none →
      Manifest.from_env env artifacts =
        Except.error (EnvError.keyError "ARTIFACTS_BUCKET")) ∧
    (∀ b, env "ARTIFACTS_BUCKET" = some b → 1 ≤ b.length →
      env "ARTIFACTS_REMOTE_PREFIX" = none →
      env "ARTIFACTS_LOCAL_PREFIX" = none →
      Manifest.from_env env artifacts =
        Except.ok ⟨⟨b, "", "", 50⟩, artifacts⟩) := by
  constructor
  · intro h
    unfold Manifest.from_env
    rw [h]
  · intro b hb hlen hr hl
    have hni : ¬ (b.length < 1) := by omega
    have hval : ManifestConfiguration.validate
        [("bucket", FieldValue.str b),
         ("remote_prefix", FieldValue.str ""),
         ("local_prefix", FieldValue.str "")] =
        Except.ok ⟨b, "", "", 50⟩ := by
      show (if b.length < 1 then Except.error (ValidationError.invalid "bucket")
        else Except.ok (⟨b, "", "", 50⟩ : ManifestConfiguration)) =
        Except.ok ⟨b, "", "", 50⟩
      rw [if_neg hni]
    unfold Manifest.from_env
    rw [hb, hr, hl]
    show (match ManifestConfiguration.validate
        [("bucket", FieldValue.str b),
         ("remote_prefix", FieldValue.str ""),
         ("local_prefix", FieldValue.str "")] with
      | Except.ok cfg => Except.ok (⟨cfg, artifacts⟩ : Manifest)
      | Except.error e => Except.error (EnvError.validation e)) =
      Except.ok ⟨⟨b, "", "", 50⟩, artifacts⟩
    rw [hval]

/-- An environment with only the bucket variable set. -/
def envBucketOnly : Env :=
  fun k => if k = "ARTIFACTS_BUCKET" then some "bkt" else none

/-- An environment with nothing set. -/
def envUnset : Env := fun _ => none

/-- C9, witness: the theorem applied to the empty environment and to an
environment carrying only a nonempty bucket name. -/
theorem C9_from_env_witness :
    Manifest.from_env envUnset [] =
      Except.error (EnvError.keyError "ARTIFACTS_BUCKET") ∧
    Manifest.from_env envBucketOnly [⟨"n", "p"⟩] =
      Except.ok ⟨⟨"bkt", "", "", 50⟩, [⟨"n", "p"⟩]⟩ :=
  ⟨(C9_from_env envUnset []).1 rfl,
   (C9_from_env envBucketOnly [⟨"n", "p"⟩]).2 "bkt" rfl (by decide) rfl rfl⟩

/-- C10: `get_artifact` creates the parent directories of the computed
local path before invoking the client download, so when the download then
fails the raised error is returned, no file is written, and the freshly
created directory chain is present in the resulting state — the trace
shows the `mkdirParents` call strictly before the failed `downloadFile`
call, and nothing removes the directories on the error path. -/
theorem C10_mkdir_persists_on_error (m : Manifest) (client : S3Client)
    (a : Artifact) (w : World) (e : TransferError)
    (h : client.download m.config.bucket (remoteKey m.config a) =
      Except.error e) :
    (m.get_artifact client a w).2 = some e ∧
    (m.get_artifact client a w).1.files = w.files ∧
    (m.get_artifact client a w).1.dirs =
      w.dirs ++ dirChain (parentDir (localPathOf m.config a)) ∧
    (m.get_artifact client a w).1.events =
      w.events ++
        [Event.mkdirParents (parentDir (localPathOf m.config a)),
         Event.downloadFile m.config.bucket (remoteKey m.config a)
           (localPathOf m.config a)] := by
  rw [get_artifact_err m client a w e h]
  exact ⟨rfl, rfl, rfl, rfl⟩

/-- C10, witness: a failing download of an artifact under a nested local
path, from the empty world. -/
theorem C10_mkdir_persists_on_error_witness :
    ((⟨⟨"bkt", "", "sub", 50⟩, []⟩ : Manifest).get_artifact
        ⟨fun _ _ => Except.error (TransferError.clientError "x"),
          fun _ _ _ => Except.ok ()⟩ ⟨"n", "d/f"⟩ emptyWorld).2 =
      some (TransferError.clientError "x") ∧
    ((⟨⟨"bkt", "", "sub", 50⟩, []⟩ : Manifest).get_artifact
        ⟨fun _ _ => Except.error (TransferError.clientError "x"),
          fun _ _ _ => Except.ok ()⟩ ⟨"n", "d/f"⟩ emptyWorld).1.files =
      emptyWorld.files ∧
    ((⟨⟨"bkt", "", "sub", 50⟩, []⟩ : Manifest).get_artifact
        ⟨fun _ _ => Except.error (TransferError.clientError "x"),
          fun _ _ _ => Except.ok ()⟩ ⟨"n", "d/f"⟩ emptyWorld).1.dirs =
      emptyWorld.dirs ++
        dirChain (parentDir (localPathOf ⟨"bkt", "", "sub", 50⟩ ⟨"n", "d/f"⟩)) ∧
    ((⟨⟨"bkt", "", "sub", 50⟩, []⟩ : Manifest).get_artifact
        ⟨fun _ _ => Except.error (TransferError.clientError "x"),
          fun _ _ _ => Except.ok ()⟩ ⟨"n", "d/f"⟩ emptyWorld).1.events =
      emptyWorld.events ++
        [Event.mkdirParents (parentDir (localPathOf ⟨"bkt", "", "sub", 50⟩ ⟨"n", "d/f"⟩)),
         Event.downloadFile "bkt" (remoteKey ⟨"bkt", "", "sub", 50⟩ ⟨"n", "d/f"⟩)
           (localPathOf ⟨"bkt", "", "sub", 50⟩ ⟨"n", "d/f"⟩)] :=
  C10_mkdir_persists_on_error ⟨⟨"bkt", "", "sub", 50⟩, []⟩
    ⟨fun _ _ => Except.error (TransferError.clientError "x"),
      fun _ _ _ => Except.ok ()⟩ ⟨"n", "d/f"⟩ emptyWorld
    (TransferError.clientError "x") rfl
